import Mathlib

/-!
Verification development for the telehealth frontend's video-call and
transcription core.  The definitions below are shallow embeddings of

* the `useVideoCall` hook (connection guard, disconnect teardown,
  screen-share toggle) from the video-call source file,
* the `useSpeechRecognition` hook (result persistence, error handling,
  restart behaviour) from src/hooks/useSpeechRecognition.ts,
* the `TranscriptionPanel` component (caption polling and debounced
  display) from src/components/video/TranscriptionPanel.tsx, and
* `getDisplayName` / `getParticipantName` (identity-string parsing) from
  the VideoCall component.

React state and refs become explicit record fields; asynchronous
callbacks, timers and effect runs become events applied to the state by
executable step functions.  JS strings are modelled as `String` or, where
splitting has to be reasoned about, as `List Char`.
-/

set_option maxHeartbeats 1000000

/-! ## Speech recognition hook (`useSpeechRecognition`) -/

/-- One recognition result, restricted to the first alternative the handler
reads: `result[0].transcript`, `result[0].confidence` and `result.isFinal`.
A `confidence` of `none` models the engine reporting `undefined` (or `NaN`),
which is falsy in JS just like `0`. -/
structure RecResult where
  transcript : String
  confidence : Option ℚ
  isFinal : Bool
  deriving DecidableEq

/-- The payload of an `apiService.saveTranscription` call (the `timestamp`
field, a wall-clock read, is not modelled). -/
structure SavedTranscription where
  speaker_name : String
  speaker_type : String
  text : String
  confidence : ℚ
  is_final : Bool
  language : String
  deriving DecidableEq

/-- The transcription record built for one final result inside
`recognition.onresult`.  The JS expression `confidence || 0.5` evaluates to
`0.5` exactly when `confidence` is falsy (`undefined`, `NaN` or `0`). -/
def mkSaved (speakerName speakerType : String) (r : RecResult) : SavedTranscription :=
  { speaker_name := speakerName
    speaker_type := speakerType
    text := r.transcript
    confidence := match r.confidence with
      | none => 1/2
      | some c => if c = 0 then 1/2 else c
    is_final := r.isFinal
    language := "es-DO" }

/-- Embedding of the `recognition.onresult` handler: iterate `event.results`
from `event.resultIndex`, `continue` past entries with `isFinal = false`,
and persist one transcription per final entry (persistence failures are
caught and do not affect which records are sent). -/
def onresultSaves (speakerName speakerType : String)
    (results : List RecResult) (resultIndex : Nat) : List SavedTranscription :=
  (results.drop resultIndex).flatMap
    (fun r => if r.isFinal then [mkSaved speakerName speakerType r] else [])

/-- State of the `useSpeechRecognition` hook.  `isSupported` and
`isListening` are the two `useState` values, `hasRecognition` models
`recognitionRef.current` being non-null, `engineRunning` is the status of
the underlying browser engine, and `pendingRestart` holds the delay (ms) of
the `setTimeout` scheduled by `recognition.onend` when one is pending.
`capturedEnabled` is the value of the `isEnabled` prop captured by the
handler closures when the setup effect installed them: that effect's
dependency array is `[visitId, speakerName, speakerType]`, so the handlers
are not reinstalled when `isEnabled` changes and keep seeing the value from
the render in which the effect last ran. -/
structure SpeechState where
  isSupported : Bool
  isListening : Bool
  hasRecognition : Bool
  engineRunning : Bool
  capturedEnabled : Bool
  pendingRestart : Option Nat
  deriving DecidableEq

/-- Console output of the hook's start paths. -/
inductive SpeechLog where
  | warned (msg : String)
  | errorLogged (msg : String)
  deriving DecidableEq

/-- Mounting the hook: the setup effect checks capability, creates the
recognition object (not yet started) and installs the handlers, capturing
the current value of the `isEnabled` prop in their closures. -/
def speechMount (supported isEnabledAtMount : Bool) : SpeechState :=
  { isSupported := supported
    isListening := false
    hasRecognition := supported
    engineRunning := false
    capturedEnabled := isEnabledAtMount
    pendingRestart := none }

/-- Embedding of `recognition.onend`: the engine has stopped (that is why the
event fired), `setIsListening(false)` runs, and a 500 ms restart timeout is
scheduled only when the captured `isEnabled` value is true and the
recognition ref is set. -/
def speechOnEnd (s : SpeechState) : SpeechState :=
  { s with
    engineRunning := false
    isListening := false
    pendingRestart :=
      if s.capturedEnabled && s.hasRecognition then some 500 else s.pendingRestart }

/-- The body of the timeout scheduled by `recognition.onend`: re-check the
captured `isEnabled` and the ref, then call `start()`.  `start()` on an
already-running engine throws an "already started" error, which the handler
swallows (errors are only logged when the message does not contain
"already started"); in that branch `setIsListening(true)` is skipped. -/
def speechRestartFire (s : SpeechState) : SpeechState × List SpeechLog :=
  let s0 := { s with pendingRestart := none }
  if s0.capturedEnabled && s0.hasRecognition then
    if s0.engineRunning then
      (s0, [])
    else
      ({ s0 with engineRunning := true, isListening := true }, [])
  else
    (s0, [])

/-- Embedding of `recognition.onerror`: `no-speech` returns early leaving
`isListening` unchanged; every other error code (`not-allowed`, `aborted`,
`network`, and the rest) falls through to `setIsListening(false)`. -/
def speechOnError (err : String) (s : SpeechState) : SpeechState :=
  if err = "no-speech" then s else { s with isListening := false }

/-- Embedding of the start/stop effect of the hook, whose dependency array
is `[isEnabled, isSupported, isListening, speakerName]`: it re-runs with the
current `isEnabled` prop whenever `isListening` changes.  When `isEnabled`
is true and `isListening` is false it calls `start()`; an "already started"
error from `start()` is treated as success (a warning is logged and
`isListening` is set true). -/
def speechEnableEffect (isEnabledNow : Bool) (s : SpeechState) :
    SpeechState × List SpeechLog :=
  if !s.isSupported || !s.hasRecognition then (s, [])
  else if isEnabledNow && !s.isListening then
    if s.engineRunning then
      ({ s with isListening := true },
       [SpeechLog.warned "Speech recognition already started"])
    else
      ({ s with engineRunning := true, isListening := true }, [])
  else if !isEnabledNow && s.isListening then
    ({ s with engineRunning := false, isListening := false }, [])
  else (s, [])

/-- The hook as mounted by `VideoCall`: the browser supports recognition and
transcription starts disabled (`isTranscriptionEnabled` is initialised to
`false`), so the handler closures capture `isEnabled = false`. -/
def speechMounted : SpeechState := speechMount true false

/-- The state after the user enables transcription: the start/stop effect
runs with `isEnabled = true` and starts the engine. -/
def speechListening : SpeechState := (speechEnableEffect true speechMounted).1

/-- A hook state whose handlers were installed while the `isEnabled` prop was
already true (general use of the hook outside this application's mount
order). -/
def speechCapturedOn : SpeechState := { speechListening with capturedEnabled := true }

/-- Sample result batch used by witnesses. -/
def recSample : List RecResult :=
  [⟨"hola doctor", some (9/10), true⟩, ⟨"eh", some (1/2), false⟩]

/-! ## Connection guard of `useVideoCall` (`connectToRoom` and friends)

The fields below are the pieces of hook state that `connectToRoom`, the
`catch`/`finally` blocks, the room `disconnected` handler and `disconnect`
read or write: `connectionInstanceRef`, `isConnectingRef`, the `room` state
(only its presence matters here), `lastConnectionAttemptRef`,
`isCleaningUpRef` and the `error` state.  Each asynchronous callback is an
event; `connStep` applies one event and reports whether it performed a
transport-level `connect` call. -/

structure ConnState where
  connectionInstance : Option Nat
  isConnecting : Bool
  hasRoom : Bool
  lastAttempt : Nat
  isCleaningUp : Bool
  lastError : Option String
  isConnected : Bool
  deriving DecidableEq

/-- Events delivered to the connection guard: a `connectToRoom` invocation
(with its freshly generated instance id, the current `Date.now()` and
whether token and room name are non-empty), resolution or rejection of the
awaited transport `connect`, the room `disconnected` event, the 100 ms
timeout that resets `isCleaningUpRef`, and a user-initiated `disconnect`. -/
inductive ConnEv where
  | invoke (instId now : Nat) (tokenOk : Bool)
  | connectOk
  | connectErr (msg : String)
  | roomDisconnectedEvt
  | cleanupFlagReset
  | userDisconnect
  deriving DecidableEq

/-- Hook state at mount. -/
def connInit : ConnState :=
  { connectionInstance := none
    isConnecting := false
    hasRoom := false
    lastAttempt := 0
    isCleaningUp := false
    lastError := none
    isConnected := false }

/-- The synchronous prefix of `connectToRoom` after the instance check:
record this instance id, then bail out when token/room are missing, a
connect is in flight, a room already exists, or the last accepted attempt
was less than 1000 ms ago; otherwise stamp the attempt and start the
transport connect (`setError(null)` runs just before the `await`).  The
returned flag says whether the transport `connect` was invoked.  `Date.now`
values are naturals; JS computes `now - lastAttempt` exactly on them and a
negative difference makes the cooldown test true just as truncated
subtraction does. -/
def connBegin (instId now : Nat) (tokenOk : Bool) (s : ConnState) : ConnState × Bool :=
  let s1 := { s with connectionInstance := some instId }
  if !tokenOk then (s1, false)
  else if s1.isConnecting then (s1, false)
  else if s1.hasRoom then (s1, false)
  else if now - s1.lastAttempt < 1000 then (s1, false)
  else ({ s1 with lastAttempt := now, isConnecting := true, lastError := none }, true)

/-- One event against the guard state.  `invoke` first performs the
connection-instance check (reject when another instance id is already
recorded); `connectOk` is the success continuation plus the `finally`
block; `connectErr` is the `catch` plus `finally` (note it leaves
`connectionInstance` untouched); `roomDisconnectedEvt` is the room
`disconnected` handler with its `isCleaningUpRef` guard; `userDisconnect`
is `disconnect()`, a no-op without a room. -/
def connStep (s : ConnState) : ConnEv → ConnState × Bool
  | .invoke instId now tokenOk =>
    match s.connectionInstance with
    | some j => if j = instId then connBegin instId now tokenOk s else (s, false)
    | none => connBegin instId now tokenOk s
  | .connectOk =>
    ({ s with hasRoom := true, isConnected := true, isConnecting := false }, false)
  | .connectErr msg =>
    ({ s with lastError := some msg, isConnecting := false }, false)
  | .roomDisconnectedEvt =>
    if s.isCleaningUp then (s, false)
    else
      ({ s with
          isCleaningUp := true
          hasRoom := false
          isConnected := false
          isConnecting := false
          connectionInstance := none }, false)
  | .cleanupFlagReset => ({ s with isCleaningUp := false }, false)
  | .userDisconnect =>
    if s.hasRoom then
      ({ s with
          hasRoom := false
          isConnected := false
          isConnecting := false
          connectionInstance := none }, false)
    else (s, false)

/-- Run a list of events, counting how many transport-level `connect` calls
were performed. -/
def connRun (s : ConnState) : List ConnEv → ConnState × Nat
  | [] => (s, 0)
  | e :: es =>
    let p := connStep s e
    let q := connRun p.1 es
    (q.1, (if p.2 then 1 else 0) + q.2)

/-- The failing scenario for the retry-after-failure claim: a first attempt
at t = 5000 ms whose transport connect rejects, then a fresh attempt (new
instance id) at t = 10000 ms, far outside the 1000 ms cooldown. -/
def connFailTrace : List ConnEv :=
  [ConnEv.invoke 1 5000 true, ConnEv.connectErr "transport rejected token",
   ConnEv.invoke 2 10000 true]

/-! ## Teardown and screen share of `useVideoCall`

This second view of the hook models the fields that `disconnect` and
`toggleScreenShare` read and write, including the room's local track
publications.  Hardware/DOM side effects are recorded as action lists. -/

inductive TrackKind where
  | audio
  | video
  | data
  deriving DecidableEq

/-- One entry of `localParticipant.tracks`: `hasTrack` models
`publication.track` being non-null, `trackId` identifies the underlying
media track. -/
structure Publication where
  trackId : Nat
  hasTrack : Bool
  kind : TrackKind
  deriving DecidableEq

structure RoomModel where
  localTracks : List Publication
  deriving DecidableEq

/-- The hook state consulted by `disconnect` and `toggleScreenShare`.
`screenShareTrack` is `screenShareTrackRef.current` (the raw capture track
stored when screen sharing starts). -/
structure CallState where
  room : Option RoomModel
  isConnected : Bool
  participants : List Nat
  localVideoTrack : Option Nat
  localAudioTrack : Option Nat
  isConnectingFlag : Bool
  connectionInstance : Option Nat
  screenShareTrack : Option Nat
  isScreenShared : Bool
  isDisconnecting : Bool
  deriving DecidableEq

/-- Resource operations performed by `disconnect`. -/
inductive TeardownAct where
  | stopTrack (trackId : Nat)
  | detachClear (trackId : Nat)
  | unpublish (trackId : Nat)
  | roomDisconnect
  deriving DecidableEq

/-- The per-publication body of the `forEach` in `disconnect`: stop and
detach (clearing each render target's `srcObject`) only audio/video tracks,
then unpublish whenever the publication holds a track. -/
def teardownPub (p : Publication) : List TeardownAct :=
  (if p.hasTrack && (p.kind = TrackKind.audio || p.kind = TrackKind.video) then
      [TeardownAct.stopTrack p.trackId, TeardownAct.detachClear p.trackId]
    else [])
  ++ (if p.hasTrack then [TeardownAct.unpublish p.trackId] else [])

/-- Embedding of `disconnect`: return immediately when there is no room;
otherwise set the disconnecting flag, tear down every local publication,
close the room, clear the hook state, and finally stop the stored
screen-capture track if one is held.  The whole body is total (the
source wraps the teardown in try/catch), so a call never throws. -/
def disconnectCall (s : CallState) : CallState × List TeardownAct :=
  match s.room with
  | none => (s, [])
  | some rm =>
    let acts := rm.localTracks.flatMap teardownPub ++ [TeardownAct.roomDisconnect]
    let screenActs : List TeardownAct :=
      match s.screenShareTrack with
      | some tid => [TeardownAct.stopTrack tid]
      | none => []
    ({ s with
        isDisconnecting := true
        room := none
        isConnected := false
        participants := []
        localVideoTrack := none
        localAudioTrack := none
        isConnectingFlag := false
        connectionInstance := none
        screenShareTrack := none },
      acts ++ screenActs)

/-- Number of times action `a` occurs in `acts`. -/
def countAct (acts : List TeardownAct) (a : TeardownAct) : Nat :=
  (acts.filter (fun x => x = a)).length

/-- How many stop/detach pairs `disconnect` owes track `t` through the
publications: one per publication of `t` holding an audio or video track. -/
def pubTeardownCount (s : CallState) (t : Nat) : Nat :=
  match s.room with
  | none => 0
  | some rm =>
    (rm.localTracks.filter (fun p =>
      p.hasTrack && (p.kind = TrackKind.audio || p.kind = TrackKind.video)
        && p.trackId = t)).length

/-- How many unpublishes `disconnect` owes track `t`: one per publication of
`t` holding a track. -/
def pubUnpublishCount (s : CallState) (t : Nat) : Nat :=
  match s.room with
  | none => 0
  | some rm =>
    (rm.localTracks.filter (fun p => p.hasTrack && p.trackId = t)).length

/-- The extra stop issued through `screenShareTrackRef` at the end of the
teardown (only reached when a room exists). -/
def screenStopExtra (s : CallState) (t : Nat) : Nat :=
  match s.room with
  | none => 0
  | some _ => if s.screenShareTrack = some t then 1 else 0

/-- A connected call with camera and microphone published and an active
screen share: the capture track (id 7) is both published and stored in
`screenShareTrackRef`. -/
def callWithScreenShare : CallState :=
  { room := some ⟨[⟨1, true, TrackKind.audio⟩, ⟨2, true, TrackKind.video⟩,
      ⟨7, true, TrackKind.video⟩]⟩
    isConnected := true
    participants := [21]
    localVideoTrack := some 2
    localAudioTrack := some 1
    isConnectingFlag := false
    connectionInstance := some 9
    screenShareTrack := some 7
    isScreenShared := true
    isDisconnecting := false }

/-- A connected call that is not screen sharing. -/
def callConnectedNoShare : CallState :=
  { room := some ⟨[⟨1, true, TrackKind.audio⟩, ⟨2, true, TrackKind.video⟩]⟩
    isConnected := true
    participants := [21]
    localVideoTrack := some 2
    localAudioTrack := some 1
    isConnectingFlag := false
    connectionInstance := some 9
    screenShareTrack := none
    isScreenShared := false
    isDisconnecting := false }

/-- Side effects of `toggleScreenShare`. -/
inductive ScreenAct where
  | publishTrack (trackId : Nat) (trackName : String)
  | stopTrack (trackId : Nat)
  | unpublish (trackId : Nat)
  | registerEnded (trackId : Nat)
  | toastInfo (msg : String)
  | toastSuccess (msg : String)
  | toastError (msg : String)
  deriving DecidableEq

/-- Embedding of `toggleScreenShare`.  `capture` is the outcome of the
`getDisplayMedia` request: `Except.ok tid` hands over the capture track,
`Except.error msg` is the host rejecting the request, which lands in the
`catch` block and surfaces the failure as an error toast.  The subsequent
`publishTrack` on the room is modelled as resolving (no claim exercises its
failure path). -/
def toggleScreenShareCall (capture : Except String Nat) (s : CallState) :
    CallState × List ScreenAct :=
  match s.room with
  | none => (s, [])
  | some _ =>
    if s.isScreenShared then
      match s.screenShareTrack with
      | some tid =>
        ({ s with screenShareTrack := none, isScreenShared := false },
         [ScreenAct.unpublish tid, ScreenAct.stopTrack tid,
          ScreenAct.toastInfo "Screen sharing stopped"])
      | none =>
        ({ s with isScreenShared := false },
         [ScreenAct.toastInfo "Screen sharing stopped"])
    else
      match capture with
      | .ok tid =>
        ({ s with screenShareTrack := some tid, isScreenShared := true },
         [ScreenAct.publishTrack tid "screen-share",
          ScreenAct.toastSuccess "Screen sharing started",
          ScreenAct.registerEnded tid])
      | .error msg =>
        (s, [ScreenAct.toastError ("Screen sharing failed: " ++ msg)])

/-! ## Identity strings (`getDisplayName`, `getParticipantName`)

Identities are modelled as the character lists underlying the JS strings,
so that the behaviour of `split` can be proved for whole families of
identities.  `splitOnColcol` is `identity.split('::')` (greedy, leftmost
match first), `splitOnChar` is `identity.split('-')` for a one-character
separator, and `hasColcol` decides `identity.includes('::')`. -/

/-- JS `s.split('::')` on the underlying character list: scan left to
right; on a match consume both colons and start a new group. -/
def splitOnColcol : List Char → List (List Char)
  | ':' :: ':' :: xs => [] :: splitOnColcol xs
  | x :: xs =>
    match splitOnColcol xs with
    | [] => [[x]]
    | g :: gs => (x :: g) :: gs
  | [] => [[]]

/-- JS `s.split(c)` for a single-character separator. -/
def splitOnChar (c : Char) : List Char → List (List Char)
  | [] => [[]]
  | x :: xs =>
    if x = c then [] :: splitOnChar c xs
    else
      match splitOnChar c xs with
      | [] => [[x]]
      | g :: gs => (x :: g) :: gs

/-- JS `s.includes('::')`. -/
def hasColcol : List Char → Bool
  | [] => false
  | x :: xs => (x = ':' && xs.head? = some ':') || hasColcol xs

/-- Embedding of `getDisplayName`: when the identity contains `::`, return
the part after it provided the split has exactly two parts and the second
is truthy (non-empty); otherwise fall back to the role encoded before the
first `-`, mapping `provider`/`patient` to their labels and returning the
identity itself for anything else. -/
def getDisplayName (identity : List Char) : List Char :=
  let cparts := splitOnColcol identity
  if 1 < cparts.length ∧ cparts.length = 2 ∧ cparts.getD 1 [] ≠ [] then
    cparts.getD 1 []
  else
    let parts := splitOnChar '-' identity
    let userType := parts.getD 0 []
    if userType = "provider".toList then "Provider".toList
    else if userType = "patient".toList then "Patient".toList
    else identity

/-- Embedding of `getParticipantName`: consult the `participantNames` cache
by participant sid and fall back to `getDisplayName` on the identity when
the cached value is missing or falsy (empty).  `setParticipantNames` has no
call site anywhere in the component, so the cache is `[]` at every call. -/
def getParticipantName (cache : List (String × List Char)) (sid : String)
    (identity : List Char) : List Char :=
  match cache.lookup sid with
  | some nm => if nm ≠ [] then nm else getDisplayName identity
  | none => getDisplayName identity

/-! ## Transcription panel (`TranscriptionPanel`)

The panel polls `getRecentTranscriptions(visitId, 10)` every second while
enabled.  `displayed` is the `latestTranscription` state and `clearAt` the
moment at which the pending `setTimeout(..., 5000)` will clear it, if one
is pending.  Display changes are recorded as `DispEv` events. -/

/-- A transcription row as fetched by the panel (fields not read by the
display logic are omitted). -/
structure Utt where
  transcription_id : String
  text : String
  deriving DecidableEq

structure PanelState where
  displayed : Option Utt
  clearAt : Option Nat
  deriving DecidableEq

/-- Panel state at mount: nothing displayed, no pending timeout. -/
def panelInit : PanelState := ⟨none, none⟩

/-- Externally visible display changes: a caption shown, a caption
cleared. -/
inductive DispEv where
  | shown (id : String)
  | cleared
  deriving DecidableEq

/-- Events applied to the panel: one completed polling fetch (with the rows
returned and the current time), the 5-second clear timeout firing, the
effect cleanup that runs whenever the effect's dependencies
`[visitId, isEnabled, latestTranscription]` change (it cancels the pending
interval and timeout), and the disable branch of the effect. -/
inductive PanelEv where
  | poll (recent : List Utt) (now : Nat)
  | clearTimerFire (now : Nat)
  | effectCleanup
  | disable
  deriving DecidableEq

/-- One completed fetch inside the polling effect: when rows came back,
take the newest (last) row; replace the displayed caption only when its
`transcription_id` differs from the displayed one (or nothing is
displayed), rescheduling the 5-second auto-clear. -/
def pollUpdate (recent : List Utt) (now : Nat) (s : PanelState) :
    PanelState × List DispEv :=
  match recent.getLast? with
  | none => (s, [])
  | some newest =>
    let differs :=
      match s.displayed with
      | none => true
      | some cur => newest.transcription_id != cur.transcription_id
    if differs then
      (⟨some newest, some (now + 5000)⟩, [DispEv.shown newest.transcription_id])
    else (s, [])

/-- One event against the panel state.  The clear timeout only does
anything if it is still the scheduled one (`clearTimeout` cancels it
otherwise); the effect cleanup cancels the pending timeout but leaves the
displayed caption; disable clears everything. -/
def panelStep (s : PanelState) : PanelEv → PanelState × List DispEv
  | .poll recent now => pollUpdate recent now s
  | .clearTimerFire now =>
    if s.clearAt = some now then
      (⟨none, none⟩, match s.displayed with | some _ => [DispEv.cleared] | none => [])
    else (s, [])
  | .effectCleanup => ({ s with clearAt := none }, [])
  | .disable =>
    (⟨none, none⟩, match s.displayed with | some _ => [DispEv.cleared] | none => [])

/-- Run a list of panel events, concatenating the display changes. -/
def panelRun (s : PanelState) : List PanelEv → PanelState × List DispEv
  | [] => (s, [])
  | e :: es =>
    let p := panelStep s e
    let q := panelRun p.1 es
    (q.1, p.2 ++ q.2)

/-- Checks a display-change sequence given the id currently on screen:
a caption may be shown only when it differs from the one currently shown;
after a clear anything may be shown. -/
def chainOk : Option String → List DispEv → Bool
  | _, [] => true
  | cur, DispEv.shown a :: rest =>
    (match cur with
     | some c => a != c
     | none => true) && chainOk (some a) rest
  | _, DispEv.cleared :: rest => chainOk none rest

/-! ## Lemmas about the split embeddings -/

/-- A string without `::` is returned whole by `split('::')`. -/
theorem splitOnColcol_of_not_has (l : List Char) (h : hasColcol l = false) :
    splitOnColcol l = [l] := by
  induction l using splitOnColcol.induct with
  | case1 xs ih => simp [hasColcol] at h
  | case2 x xs hne hnil ih =>
    have hxs : hasColcol xs = false := by
      simp only [hasColcol, Bool.or_eq_false_iff] at h
      exact h.2
    rw [ih hxs] at hnil
    exact absurd hnil (by simp)
  | case3 x xs hne g gs hsplit ih =>
    have hxs : hasColcol xs = false := by
      simp only [hasColcol, Bool.or_eq_false_iff] at h
      exact h.2
    have hgs : g :: gs = [xs] := by rw [← ih hxs, hsplit]
    rw [splitOnColcol.eq_def]
    split
    · next xs2 heq =>
      injection heq with h1 h2
      exact (hne xs2 h1 h2).elim
    · next w c t hno heq =>
      injection heq with h1 h2
      subst h1
      subst h2
      simp only [hsplit]
      injection hgs with hg hgs2
      subst hg
      subst hgs2
      rfl
    · next heq => exact absurd heq (by simp)
  | case4 => rfl

/-- Splitting `a ++ "::" ++ b` on `::` when `a` contains no colon yields `a`
followed by the groups of `b`. -/
theorem splitOnColcol_append (a b : List Char) (ha : ':' ∉ a) :
    splitOnColcol (a ++ ':' :: ':' :: b) = a :: splitOnColcol b := by
  induction a with
  | nil => rfl
  | cons x a ih =>
    have hx : x ≠ ':' := fun h => ha (h ▸ List.mem_cons_self x a)
    have ha' : ':' ∉ a := fun h => ha (List.mem_cons_of_mem x h)
    rw [List.cons_append, splitOnColcol.eq_def]
    split
    · next xs2 heq =>
      injection heq with h1 h2
      exact (hx h1).elim
    · next w c t hno heq =>
      injection heq with h1 h2
      subst h1
      rw [← h2]
      simp only [ih ha']
    · next heq => exact absurd heq (by simp)

/-- Splitting `a ++ c :: rest` on `c` when `a` avoids `c` yields `a` followed
by the groups of `rest`. -/
theorem splitOnChar_append (c : Char) (a rest : List Char) (ha : c ∉ a) :
    splitOnChar c (a ++ c :: rest) = a :: splitOnChar c rest := by
  induction a with
  | nil => simp [splitOnChar]
  | cons x a ih =>
    have hx : x ≠ c := fun h => ha (h ▸ List.mem_cons_self x a)
    have ha' : c ∉ a := fun h => ha (List.mem_cons_of_mem x h)
    rw [List.cons_append]
    simp only [splitOnChar, if_neg hx, ih ha']

/-- C7: participant naming follows the wire identity convention.  For every
identity of the form `<role>-<participantId>-<contextId>::<DisplayName>`
(no colon before the `::`, display name non-empty and itself free of `::`),
the participant-name function returns the display-name suffix; for every
identity without a `::` suffix whose role segment (the text before the
first `-`) is `provider` or `patient`, it returns `Provider` or `Patient`
respectively.  The name cache is empty at every call because
`setParticipantNames` is never invoked. -/
theorem participant_name_follows_convention
    (sid : String) (role pid ctx nm rest : List Char)
    (hpre : ':' ∉ role ++ '-' :: pid ++ '-' :: ctx)
    (hnm1 : nm ≠ []) (hnm2 : hasColcol nm = false) :
    getParticipantName [] sid
        ((role ++ '-' :: pid ++ '-' :: ctx) ++ ':' :: ':' :: nm) = nm
    ∧ (hasColcol ("provider".toList ++ '-' :: rest) = false →
        getParticipantName [] sid ("provider".toList ++ '-' :: rest)
          = "Provider".toList)
    ∧ (hasColcol ("patient".toList ++ '-' :: rest) = false →
        getParticipantName [] sid ("patient".toList ++ '-' :: rest)
          = "Patient".toList) := by
  refine ⟨?_, ?_, ?_⟩
  · have hsp : splitOnColcol ((role ++ '-' :: pid ++ '-' :: ctx) ++ ':' :: ':' :: nm)
        = [role ++ '-' :: pid ++ '-' :: ctx, nm] := by
      rw [splitOnColcol_append _ _ hpre, splitOnColcol_of_not_has nm hnm2]
    simp only [List.append_assoc, List.cons_append] at hsp
    simp [getParticipantName, getDisplayName, hsp, hnm1]
  · intro h
    have hsp : splitOnColcol ('p' :: 'r' :: 'o' :: 'v' :: 'i' :: 'd' :: 'e' :: 'r'
          :: '-' :: rest)
        = ['p' :: 'r' :: 'o' :: 'v' :: 'i' :: 'd' :: 'e' :: 'r' :: '-' :: rest] :=
      splitOnColcol_of_not_has _ h
    have hsc : splitOnChar '-' ('p' :: 'r' :: 'o' :: 'v' :: 'i' :: 'd' :: 'e' :: 'r'
          :: '-' :: rest)
        = ['p', 'r', 'o', 'v', 'i', 'd', 'e', 'r'] :: splitOnChar '-' rest :=
      splitOnChar_append '-' ['p', 'r', 'o', 'v', 'i', 'd', 'e', 'r'] rest (by decide)
    simp [getParticipantName, getDisplayName, hsp, hsc]
  · intro h
    have hsp : splitOnColcol ('p' :: 'a' :: 't' :: 'i' :: 'e' :: 'n' :: 't'
          :: '-' :: rest)
        = ['p' :: 'a' :: 't' :: 'i' :: 'e' :: 'n' :: 't' :: '-' :: rest] :=
      splitOnColcol_of_not_has _ h
    have hsc : splitOnChar '-' ('p' :: 'a' :: 't' :: 'i' :: 'e' :: 'n' :: 't'
          :: '-' :: rest)
        = ['p', 'a', 't', 'i', 'e', 'n', 't'] :: splitOnChar '-' rest :=
      splitOnChar_append '-' ['p', 'a', 't', 'i', 'e', 'n', 't'] rest (by decide)
    simp [getParticipantName, getDisplayName, hsp, hsc]

/-- C7 witness: the spec's concrete scenario — a provider identity with a
display-name suffix resolves to the suffix, a patient identity without one
resolves to the role label. -/
theorem participant_name_follows_convention_witness :
    getParticipantName [] "PA1" "provider-p1-v123::Dr. Smith".toList
        = "Dr. Smith".toList
    ∧ getParticipantName [] "PA2" "patient-x9-v123".toList = "Patient".toList := by
  constructor
  · have h := participant_name_follows_convention "PA1" "provider".toList
      "p1".toList "v123".toList "Dr. Smith".toList "x9-v123".toList
      (by decide) (by decide) (by decide)
    have e : "provider-p1-v123::Dr. Smith".toList
        = ("provider".toList ++ '-' :: "p1".toList ++ '-' :: "v123".toList)
            ++ ':' :: ':' :: "Dr. Smith".toList := by decide
    rw [e]
    exact h.1
  · have h := participant_name_follows_convention "PA2" "provider".toList
      "p1".toList "v123".toList "Dr. Smith".toList "x9-v123".toList
      (by decide) (by decide) (by decide)
    have e : "patient-x9-v123".toList
        = "patient".toList ++ '-' :: "x9-v123".toList := by decide
    rw [e]
    exact h.2.2 (by decide)

/-! ## Claims about the speech-recognition hook -/

/-- C4: in every result batch delivered to `recognition.onresult`, no interim
(`isFinal = false`) result is ever sent to the persistence sink, and every
final result is persisted as exactly one transcription record: the records
sent are exactly the final entries of the processed slice, in order, and
every record sent carries `is_final = true`. -/
theorem onresult_persists_exactly_finals (sn st : String)
    (results : List RecResult) (idx : Nat) :
    onresultSaves sn st results idx
      = ((results.drop idx).filter (fun r => r.isFinal)).map (mkSaved sn st)
    ∧ ∀ u ∈ onresultSaves sn st results idx, u.is_final = true := by
  have key : ∀ l : List RecResult,
      l.flatMap (fun r => if r.isFinal then [mkSaved sn st r] else [])
        = (l.filter (fun r => r.isFinal)).map (mkSaved sn st) := by
    intro l
    induction l with
    | nil => rfl
    | cons r t ih =>
      by_cases hr : r.isFinal
      · simp [List.flatMap_cons, List.filter_cons, hr, ih]
      · simp [List.flatMap_cons, List.filter_cons, hr, ih]
  constructor
  · exact key (results.drop idx)
  · intro u hu
    rw [onresultSaves, key (results.drop idx)] at hu
    obtain ⟨r, hr, rfl⟩ := List.mem_map.mp hu
    have := (List.mem_filter.mp hr).2
    simp only [decide_eq_true_eq] at this
    simp [mkSaved, this]

/-- C4 witness: a batch with one final and one interim result persists
exactly the final one. -/
theorem onresult_persists_exactly_finals_witness :
    onresultSaves "Dr" "provider" recSample 0
      = ((recSample.drop 0).filter (fun r => r.isFinal)).map (mkSaved "Dr" "provider")
    ∧ (mkSaved "Dr" "provider" ⟨"hola doctor", some (9/10), true⟩).is_final = true := by
  refine ⟨(onresult_persists_exactly_finals "Dr" "provider" recSample 0).1, ?_⟩
  exact (onresult_persists_exactly_finals "Dr" "provider" recSample 0).2
    (mkSaved "Dr" "provider" ⟨"hola doctor", some (9/10), true⟩)
    (by rw [(onresult_persists_exactly_finals "Dr" "provider" recSample 0).1]; simp [recSample])

/-- C10: the `confidence || 0.5` fallback — a missing (or `NaN`) or zero
engine confidence is persisted as `0.5`, any non-zero confidence is kept,
and consequently no record sent by `onresult` ever carries confidence 0. -/
theorem confidence_zero_never_persisted (sn st : String) (r : RecResult) :
    ((r.confidence = none ∨ r.confidence = some 0) →
      (mkSaved sn st r).confidence = 1/2)
    ∧ (∀ c : ℚ, r.confidence = some c → c ≠ 0 → (mkSaved sn st r).confidence = c)
    ∧ (∀ results idx, ∀ u ∈ onresultSaves sn st results idx, u.confidence ≠ 0) := by
  refine ⟨?_, ?_, ?_⟩
  · rintro (h | h) <;> simp [mkSaved, h]
  · intro c hc hne
    simp [mkSaved, hc, hne]
  · intro results idx u hu
    rw [onresultSaves] at hu
    obtain ⟨r', hr', hm⟩ := List.mem_flatMap.mp hu
    by_cases hf : r'.isFinal
    · rw [if_pos hf, List.mem_singleton] at hm
      subst hm
      rcases hr'' : r'.confidence with _ | c
      · simp [mkSaved, hr'']
      · by_cases hc : c = 0
        · simp [mkSaved, hr'', hc]
        · simp [mkSaved, hr'', hc]
    · rw [if_neg hf] at hm
      exact absurd hm (List.not_mem_nil _)

/-- C10 witness: a reported confidence of 0 is persisted as 0.5, a non-zero
one is kept. -/
theorem confidence_zero_never_persisted_witness :
    (mkSaved "Dr" "provider" ⟨"x", some 0, true⟩).confidence = 1/2
    ∧ (mkSaved "Dr" "provider" ⟨"y", some (3/4), true⟩).confidence = 3/4 := by
  constructor
  · exact (confidence_zero_never_persisted "Dr" "provider" ⟨"x", some 0, true⟩).1
      (Or.inr rfl)
  · exact (confidence_zero_never_persisted "Dr" "provider"
      ⟨"y", some (3/4), true⟩).2.1 (3/4) rfl (by norm_num)

/-- C5 counterexample: in this application the handlers are installed at
mount, while `isEnabled` is still false (`VideoCall` initialises
`isTranscriptionEnabled` to `false`, and the setup effect's dependencies
exclude `isEnabled`), so when the engine's "end" event fires while the
external flag is true the `onend` handler schedules no 500 ms restart at
all; listening resumes only because the start/stop effect — re-run since
`isListening` changed — starts the engine again immediately. -/
theorem speech_end_restart_cex :
    (speechOnEnd speechListening).pendingRestart = none
    ∧ (speechOnEnd speechListening).pendingRestart ≠ some 500
    ∧ (speechEnableEffect true (speechOnEnd speechListening)).1.isListening = true
    ∧ (speechEnableEffect true (speechOnEnd speechListening)).1.engineRunning
        = true := by
  decide

/-- C5 amended: when the engine ends while the external `isEnabled` flag is
true, listening resumes without manual intervention — via the start/stop
effect on the next render, immediately, rather than after 500 ms.  The
500 ms delayed restart in the `onend` handler fires only when the
`isEnabled` value captured at handler-installation time was true; in that
mode the timer restarts the engine and sets `isListening`, and an "already
started" outcome is treated as success (nothing is logged and no exception
escapes). -/
theorem speech_end_restart_amended (s : SpeechState)
    (hsup : s.isSupported = true) (href : s.hasRecognition = true) :
    (speechEnableEffect true (speechOnEnd s)).1.isListening = true
    ∧ (s.capturedEnabled = true → (speechOnEnd s).pendingRestart = some 500)
    ∧ (s.capturedEnabled = true →
        (speechRestartFire (speechOnEnd s)).1.isListening = true
        ∧ (speechRestartFire (speechOnEnd s)).1.engineRunning = true
        ∧ (speechRestartFire (speechOnEnd s)).2 = [])
    ∧ (s.capturedEnabled = true → s.engineRunning = true →
        speechRestartFire s = ({ s with pendingRestart := none }, [])) := by
  refine ⟨?_, ?_, ?_, ?_⟩
  · simp [speechOnEnd, speechEnableEffect, hsup, href]
  · intro hc
    simp [speechOnEnd, hc, href]
  · intro hc
    simp [speechOnEnd, speechRestartFire, hc, href]
  · intro hc he
    simp [speechRestartFire, hc, href, he]

/-- C5 amended, witnessed at a hook state whose handlers captured
`isEnabled = true`: the end event schedules the 500 ms restart, the timer
brings listening back, and the immediate effect-driven restart also
re-listens. -/
theorem speech_end_restart_amended_witness :
    (speechEnableEffect true (speechOnEnd speechCapturedOn)).1.isListening = true
    ∧ (speechOnEnd speechCapturedOn).pendingRestart = some 500
    ∧ (speechRestartFire (speechOnEnd speechCapturedOn)).1.isListening = true := by
  have h := speech_end_restart_amended speechCapturedOn (by decide) (by decide)
  exact ⟨h.1, h.2.1 (by decide), (h.2.2.1 (by decide)).1⟩

/-- C6 counterexample: after a `not-allowed` (permission denied) error and
the engine's subsequent "end", the start/stop effect — re-run because
`isListening` changed while the external `isEnabled` flag is still true —
calls `start()` again with no user interaction: the engine is auto-restarted
and `isListening` is true again, so listening does not stay stopped until
the user re-enables. -/
theorem speech_not_allowed_cex :
    (speechEnableEffect true
        (speechOnEnd (speechOnError "not-allowed" speechListening))).1.isListening
      = true
    ∧ (speechEnableEffect true
        (speechOnEnd (speechOnError "not-allowed" speechListening))).1.engineRunning
      = true := by
  decide

/-- C6 amended: the error handler itself restarts nothing — `not-allowed`
clears `isListening` and schedules no restart, and `no-speech` leaves the
state entirely unchanged — but whenever the external `isEnabled` flag is
still true the start/stop effect restarts the engine on the next render, so
listening stays stopped only once the user disables transcription. -/
theorem speech_not_allowed_amended (s : SpeechState) :
    speechOnError "no-speech" s = s
    ∧ (speechOnError "not-allowed" s).isListening = false
    ∧ (speechOnError "not-allowed" s).pendingRestart = s.pendingRestart
    ∧ (s.isSupported = true → s.hasRecognition = true →
        (speechEnableEffect true
            (speechOnEnd (speechOnError "not-allowed" s))).1.isListening = true
        ∧ (speechEnableEffect true
            (speechOnEnd (speechOnError "not-allowed" s))).1.engineRunning = true) := by
  refine ⟨?_, ?_, ?_, ?_⟩
  · simp [speechOnError]
  · simp [speechOnError]
  · simp [speechOnError]
  · intro hsup href
    constructor <;>
      simp [speechOnError, speechOnEnd, speechEnableEffect, hsup, href]

/-- C6 amended, witnessed at the application's listening state. -/
theorem speech_not_allowed_amended_witness :
    speechOnError "no-speech" speechListening = speechListening
    ∧ (speechOnError "not-allowed" speechListening).isListening = false
    ∧ (speechEnableEffect true
        (speechOnEnd (speechOnError "not-allowed" speechListening))).1.isListening
      = true := by
  have h := speech_not_allowed_amended speechListening
  exact ⟨h.1, h.2.1, (h.2.2.2 (by decide) (by decide)).1⟩

/-! ## Claims about the connection guard -/

/-- An invocation arriving less than 1000 ms after the last accepted attempt
performs no transport connect and leaves the attempt timestamp unchanged,
whatever the other guard fields hold. -/
theorem connBegin_reject (instId now : Nat) (tokenOk : Bool) (s : ConnState)
    (h : now < s.lastAttempt + 1000) :
    (connBegin instId now tokenOk s).2 = false
    ∧ (connBegin instId now tokenOk s).1.lastAttempt = s.lastAttempt := by
  simp only [connBegin]
  split_ifs with h1 h2 h3 h4
  · exact ⟨rfl, rfl⟩
  · exact ⟨rfl, rfl⟩
  · exact ⟨rfl, rfl⟩
  · exact ⟨rfl, rfl⟩
  · exact absurd h4 (by omega)

/-- Any event whose invocation time (if it is an invocation at all) falls
less than 1000 ms after the recorded attempt timestamp performs no
transport connect and preserves the timestamp. -/
theorem connStep_beh (s : ConnState) (e : ConnEv)
    (h : ∀ instId now tokenOk, e = ConnEv.invoke instId now tokenOk →
      now < s.lastAttempt + 1000) :
    (connStep s e).2 = false ∧ (connStep s e).1.lastAttempt = s.lastAttempt := by
  cases e with
  | invoke instId now tokenOk =>
    have hn := h instId now tokenOk rfl
    cases hs : s.connectionInstance with
    | none =>
      simp only [connStep, hs]
      exact connBegin_reject instId now tokenOk s hn
    | some j =>
      by_cases hj : j = instId
      · simp only [connStep, hs, if_pos hj]
        exact connBegin_reject instId now tokenOk s hn
      · simp [connStep, hs, hj]
  | connectOk => exact ⟨rfl, rfl⟩
  | connectErr msg => exact ⟨rfl, rfl⟩
  | roomDisconnectedEvt =>
    by_cases hc : s.isCleaningUp <;> simp [connStep, hc]
  | cleanupFlagReset => exact ⟨rfl, rfl⟩
  | userDisconnect =>
    by_cases hr : s.hasRoom <;> simp [connStep, hr]

/-- A step that did perform a transport connect must be an invocation, and
it stamps the attempt timestamp with its own time. -/
theorem connStep_perf (s : ConnState) (e : ConnEv) (h : (connStep s e).2 = true) :
    ∃ instId now tokenOk, e = ConnEv.invoke instId now tokenOk
      ∧ (connStep s e).1.lastAttempt = now := by
  cases e with
  | invoke instId now tokenOk =>
    refine ⟨instId, now, tokenOk, rfl, ?_⟩
    have hred : ∀ s' : ConnState, (connBegin instId now tokenOk s').2 = true →
        (connBegin instId now tokenOk s').1.lastAttempt = now := by
      intro s' hb
      simp only [connBegin] at hb ⊢
      split_ifs at hb ⊢ with h1 h2 h3 h4
      rfl
    cases hs : s.connectionInstance with
    | none =>
      simp only [connStep, hs] at h ⊢
      exact hred s h
    | some j =>
      by_cases hj : j = instId
      · simp only [connStep, hs, if_pos hj] at h ⊢
        exact hred s h
      · simp only [connStep, hs, if_neg hj] at h
        exact absurd h (by simp)
  | connectOk => exact absurd h (by simp [connStep])
  | connectErr msg => exact absurd h (by simp [connStep])
  | roomDisconnectedEvt =>
    by_cases hc : s.isCleaningUp <;> simp [connStep, hc] at h
  | cleanupFlagReset => exact absurd h (by simp [connStep])
  | userDisconnect =>
    by_cases hr : s.hasRoom <;> simp [connStep, hr] at h

/-- Once the attempt timestamp is at least `t0`, a sequence of events whose
invocations all happen before `t0 + 1000` performs no transport connect at
all. -/
theorem connRun_zero_of_recent (t0 : Nat) (evs : List ConnEv) :
    ∀ s : ConnState, t0 ≤ s.lastAttempt →
      (∀ instId now tokenOk, ConnEv.invoke instId now tokenOk ∈ evs →
        now < t0 + 1000) →
      (connRun s evs).2 = 0 := by
  induction evs with
  | nil => intro s _ _; rfl
  | cons e es ih =>
    intro s hla hwin
    have hbeh := connStep_beh s e (fun i n tk he => by
      subst he
      have := hwin i n tk (List.mem_cons_self _ _)
      omega)
    have hz := ih (connStep s e).1 (by rw [hbeh.2]; exact hla)
      (fun i n tk hm => hwin i n tk (List.mem_cons_of_mem e hm))
    simp [connRun, hbeh.1, hz]

/-- C1: single flight — from any guard state, along any sequence of events
whose `connectToRoom` invocations all fall inside one 1000 ms cooldown
window (host-environment double invocation included), at most one
transport-level `connect` call is performed, so at most one session is
connecting or connected per hook instance at any time. -/
theorem connect_single_flight (s0 : ConnState) (evs : List ConnEv) (t0 : Nat)
    (hwin : ∀ instId now tokenOk, ConnEv.invoke instId now tokenOk ∈ evs →
      t0 ≤ now ∧ now < t0 + 1000) :
    (connRun s0 evs).2 ≤ 1 := by
  induction evs generalizing s0 with
  | nil => simp [connRun]
  | cons e es ih =>
    have hwin' : ∀ i n tk, ConnEv.invoke i n tk ∈ es → t0 ≤ n ∧ n < t0 + 1000 :=
      fun i n tk hm => hwin i n tk (List.mem_cons_of_mem e hm)
    by_cases hp : (connStep s0 e).2 = true
    · obtain ⟨i, n, tk, rfl, hla⟩ := connStep_perf s0 e hp
      have hn := hwin i n tk (List.mem_cons_self _ _)
      have hz := connRun_zero_of_recent t0 es (connStep s0 (ConnEv.invoke i n tk)).1
        (by rw [hla]; exact hn.1)
        (fun i2 n2 tk2 hm => (hwin' i2 n2 tk2 hm).2)
      simp [connRun, hp, hz]
    · have hb : (connStep s0 e).2 = false := by simpa using hp
      have := ih (connStep s0 e).1 hwin'
      simp [connRun, hb]
      exact this

/-- C1 witness: three invocations 2000, 2100 and 2900 ms into the clock,
from a fresh mount — at most one transport connect happens. -/
theorem connect_single_flight_witness :
    (connRun connInit [ConnEv.invoke 1 2000 true, ConnEv.invoke 2 2100 true,
        ConnEv.invoke 3 2900 true]).2 ≤ 1 := by
  apply connect_single_flight connInit _ 2000
  intro i n tk hm
  simp only [List.mem_cons, List.not_mem_nil, or_false, ConnEv.invoke.injEq] at hm
  rcases hm with ⟨_, rfl, _⟩ | ⟨_, rfl, _⟩ | ⟨_, rfl, _⟩ <;> omega

/-- C3, evaluated at its failing input: the first attempt (instance 1,
t = 5000 ms) performs the transport connect, which rejects; the error is
surfaced and the connecting flag cleared, but `connectionInstanceRef` still
holds instance 1, so the retry (fresh instance 2, t = 10000 ms, far outside
the cooldown window) is rejected by the instance check instead of being
accepted as a fresh attempt: the run performs exactly one transport
connect. -/
theorem connect_retry_blocked_after_failure :
    (connRun connInit connFailTrace).2 = 1
    ∧ (connRun connInit connFailTrace).1.lastError = some "transport rejected token"
    ∧ (connRun connInit connFailTrace).1.isConnecting = false
    ∧ (connRun connInit connFailTrace).1.connectionInstance = some 1 := by
  decide

/-! ## Claims about `disconnect` and `toggleScreenShare` -/

/-- Action counts distribute over concatenation. -/
theorem countAct_append (xs ys : List TeardownAct) (a : TeardownAct) :
    countAct (xs ++ ys) a = countAct xs a + countAct ys a := by
  simp [countAct, List.filter_append]

/-- Stops issued for track `t` by one publication's teardown. -/
theorem teardownPub_count_stop (p : Publication) (t : Nat) :
    countAct (teardownPub p) (TeardownAct.stopTrack t)
      = if p.hasTrack && (p.kind = TrackKind.audio || p.kind = TrackKind.video)
          && p.trackId = t then 1 else 0 := by
  rcases p with ⟨id, ht, k⟩
  by_cases hid : id = t <;> cases ht <;> cases k <;>
    simp [teardownPub, countAct, hid]

/-- Detaches issued for track `t` by one publication's teardown. -/
theorem teardownPub_count_detach (p : Publication) (t : Nat) :
    countAct (teardownPub p) (TeardownAct.detachClear t)
      = if p.hasTrack && (p.kind = TrackKind.audio || p.kind = TrackKind.video)
          && p.trackId = t then 1 else 0 := by
  rcases p with ⟨id, ht, k⟩
  by_cases hid : id = t <;> cases ht <;> cases k <;>
    simp [teardownPub, countAct, hid]

/-- Unpublishes issued for track `t` by one publication's teardown. -/
theorem teardownPub_count_unpub (p : Publication) (t : Nat) :
    countAct (teardownPub p) (TeardownAct.unpublish t)
      = if p.hasTrack && p.trackId = t then 1 else 0 := by
  rcases p with ⟨id, ht, k⟩
  by_cases hid : id = t <;> cases ht <;> cases k <;>
    simp [teardownPub, countAct, hid]

/-- Stops issued for track `t` across all publications. -/
theorem flatMap_count_stop (ps : List Publication) (t : Nat) :
    countAct (ps.flatMap teardownPub) (TeardownAct.stopTrack t)
      = (ps.filter (fun p => p.hasTrack
          && (p.kind = TrackKind.audio || p.kind = TrackKind.video)
          && p.trackId = t)).length := by
  induction ps with
  | nil => rfl
  | cons p ps ih =>
    rw [List.flatMap_cons, countAct_append, ih, teardownPub_count_stop,
      List.filter_cons]
    cases hcond : (p.hasTrack && (p.kind = TrackKind.audio || p.kind = TrackKind.video)
        && p.trackId = t) <;> simp [hcond, Nat.add_comm]

/-- Detaches issued for track `t` across all publications. -/
theorem flatMap_count_detach (ps : List Publication) (t : Nat) :
    countAct (ps.flatMap teardownPub) (TeardownAct.detachClear t)
      = (ps.filter (fun p => p.hasTrack
          && (p.kind = TrackKind.audio || p.kind = TrackKind.video)
          && p.trackId = t)).length := by
  induction ps with
  | nil => rfl
  | cons p ps ih =>
    rw [List.flatMap_cons, countAct_append, ih, teardownPub_count_detach,
      List.filter_cons]
    cases hcond : (p.hasTrack && (p.kind = TrackKind.audio || p.kind = TrackKind.video)
        && p.trackId = t) <;> simp [hcond, Nat.add_comm]

/-- Unpublishes issued for track `t` across all publications. -/
theorem flatMap_count_unpub (ps : List Publication) (t : Nat) :
    countAct (ps.flatMap teardownPub) (TeardownAct.unpublish t)
      = (ps.filter (fun p => p.hasTrack && p.trackId = t)).length := by
  induction ps with
  | nil => rfl
  | cons p ps ih =>
    rw [List.flatMap_cons, countAct_append, ih, teardownPub_count_unpub,
      List.filter_cons]
    cases hcond : (p.hasTrack && p.trackId = t) <;> simp [hcond, Nat.add_comm]

/-- C2 counterexample: with screen sharing active the capture track (id 7)
is both published and stored in `screenShareTrackRef`, so a single
`disconnect` stops it twice — once through its publication and once through
the ref — refuting "each local track stopped exactly once"; the second
`disconnect` call is still a no-op. -/
theorem disconnect_double_stop_cex :
    countAct (disconnectCall callWithScreenShare).2 (TeardownAct.stopTrack 7) = 2
    ∧ countAct (disconnectCall callWithScreenShare).2 (TeardownAct.stopTrack 7) ≠ 1
    ∧ (disconnectCall (disconnectCall callWithScreenShare).1).2 = [] := by
  decide

/-- C2 amended: `disconnect` run twice in succession from any state performs
the whole teardown at most once — the second call returns immediately with
the state unchanged, no actions and no exception — and within the single
teardown each publication of an audio/video track is stopped and
detach-cleared exactly once and each publication holding a track
unpublished exactly once; in addition the stored screen-capture handle,
when set, receives one extra stop (so an actively shared screen track is
stopped twice rather than exactly once). -/
theorem disconnect_idempotent_amended (s : CallState) :
    (disconnectCall (disconnectCall s).1).1 = (disconnectCall s).1
    ∧ (disconnectCall (disconnectCall s).1).2 = []
    ∧ (∀ t, countAct (disconnectCall s).2 (TeardownAct.stopTrack t)
        = pubTeardownCount s t + screenStopExtra s t)
    ∧ (∀ t, countAct (disconnectCall s).2 (TeardownAct.detachClear t)
        = pubTeardownCount s t)
    ∧ (∀ t, countAct (disconnectCall s).2 (TeardownAct.unpublish t)
        = pubUnpublishCount s t) := by
  rcases hs : s.room with _ | rm
  · refine ⟨?_, ?_, ?_, ?_, ?_⟩ <;>
      simp [disconnectCall, hs, pubTeardownCount, pubUnpublishCount,
        screenStopExtra, countAct]
  · refine ⟨?_, ?_, ?_, ?_, ?_⟩
    · simp [disconnectCall, hs]
    · simp [disconnectCall, hs]
    · intro t
      simp only [disconnectCall, hs]
      rw [countAct_append, countAct_append, flatMap_count_stop]
      rcases hss : s.screenShareTrack with _ | tid
      · simp [countAct, pubTeardownCount, hs, screenStopExtra, hss]
      · by_cases ht : tid = t <;>
          simp [countAct, pubTeardownCount, hs, screenStopExtra, hss, ht]
    · intro t
      simp only [disconnectCall, hs]
      rw [countAct_append, countAct_append, flatMap_count_detach]
      rcases hss : s.screenShareTrack with _ | tid
      · simp [countAct, pubTeardownCount, hs, hss]
      · by_cases ht : tid = t <;> simp [countAct, pubTeardownCount, hs, hss, ht]
    · intro t
      simp only [disconnectCall, hs]
      rw [countAct_append, countAct_append, flatMap_count_unpub]
      rcases hss : s.screenShareTrack with _ | tid
      · simp [countAct, pubUnpublishCount, hs, hss]
      · by_cases ht : tid = t <;> simp [countAct, pubUnpublishCount, hs, hss, ht]

/-- C9: when the host denies the screen-capture request while a session is
active and no share is in progress, the failure is surfaced as the
screen-share error notification, the hook state is unchanged
(`isScreenShared` stays false, no capture handle is stored) and no track is
published to the session. -/
theorem screen_share_denied (s : CallState) (msg : String)
    (hroom : s.room ≠ none) (hns : s.isScreenShared = false) :
    toggleScreenShareCall (Except.error msg) s
      = (s, [ScreenAct.toastError ("Screen sharing failed: " ++ msg)])
    ∧ (toggleScreenShareCall (Except.error msg) s).1.isScreenShared = false
    ∧ ∀ tid nm, ScreenAct.publishTrack tid nm
        ∉ (toggleScreenShareCall (Except.error msg) s).2 := by
  rcases hr : s.room with _ | rm
  · exact absurd hr hroom
  · have heq : toggleScreenShareCall (Except.error msg) s
        = (s, [ScreenAct.toastError ("Screen sharing failed: " ++ msg)]) := by
      simp [toggleScreenShareCall, hr, hns]
    refine ⟨heq, ?_, ?_⟩
    · rw [heq]
      exact hns
    · intro tid nm
      rw [heq]
      simp

/-- C9 witness: denial in a connected, non-sharing call. -/
theorem screen_share_denied_witness :
    toggleScreenShareCall (Except.error "Permission denied") callConnectedNoShare
      = (callConnectedNoShare,
         [ScreenAct.toastError ("Screen sharing failed: " ++ "Permission denied")])
    ∧ (toggleScreenShareCall (Except.error "Permission denied")
        callConnectedNoShare).1.isScreenShared = false := by
  have h := screen_share_denied callConnectedNoShare "Permission denied"
    (by decide) rfl
  exact ⟨h.1, h.2.1⟩

/-! ## Claims about the transcription panel -/

/-- Along any event sequence, the display changes always form a chain in
which a caption is only ever shown while a caption with a different
identifier (or none at all) is on screen. -/
theorem panelRun_chain (evs : List PanelEv) :
    ∀ s : PanelState,
      chainOk (s.displayed.map (fun u => u.transcription_id)) (panelRun s evs).2
        = true := by
  induction evs with
  | nil => intro s; rfl
  | cons e es ih =>
    intro s
    cases e with
    | poll recent now =>
      rcases hl : recent.getLast? with _ | newest
      · have hr := ih s
        simp [panelRun, panelStep, pollUpdate, hl, hr]
      · rcases hd : s.displayed with _ | cur
        · have hr := ih (⟨some newest, some (now + 5000)⟩ : PanelState)
          simp at hr
          simp [panelRun, panelStep, pollUpdate, hl, hd, chainOk, hr]
        · by_cases hne : newest.transcription_id = cur.transcription_id
          · have hr := ih s
            rw [hd] at hr
            simp at hr
            simp [panelRun, panelStep, pollUpdate, hl, hd, hne, hr]
          · have hr := ih (⟨some newest, some (now + 5000)⟩ : PanelState)
            simp at hr
            simp [panelRun, panelStep, pollUpdate, hl, hd, hne, chainOk, hr]
    | clearTimerFire now =>
      by_cases hc : s.clearAt = some now
      · rcases hd : s.displayed with _ | cur
        · have hr := ih (⟨none, none⟩ : PanelState)
          simp at hr
          simp [panelRun, panelStep, hc, hd, hr]
        · have hr := ih (⟨none, none⟩ : PanelState)
          simp at hr
          simp [panelRun, panelStep, hc, hd, chainOk, hr]
      · have hr := ih s
        simp [panelRun, panelStep, hc, hr]
    | effectCleanup =>
      have hr := ih ({ s with clearAt := none } : PanelState)
      simp at hr
      simp [panelRun, panelStep, hr]
    | disable =>
      rcases hd : s.displayed with _ | cur
      · have hr := ih (⟨none, none⟩ : PanelState)
        simp at hr
        simp [panelRun, panelStep, hd, hr]
      · have hr := ih (⟨none, none⟩ : PanelState)
        simp at hr
        simp [panelRun, panelStep, hd, chainOk, hr]

/-- C8 counterexample: a caption shown by a poll is not cleared after 5
seconds.  Updating the displayed utterance re-runs the polling effect (the
displayed utterance is in its dependency array `[visitId, isEnabled,
latestTranscription]`), and the effect's cleanup clears the freshly
scheduled 5-second timeout, so when its moment arrives nothing fires and
the caption is still displayed. -/
theorem caption_not_cleared_cex :
    (panelRun panelInit [PanelEv.poll [⟨"t1", "hola"⟩] 0, PanelEv.effectCleanup,
        PanelEv.clearTimerFire 5000]).1.displayed = some ⟨"t1", "hola"⟩
    ∧ (panelRun panelInit [PanelEv.poll [⟨"t1", "hola"⟩] 0, PanelEv.effectCleanup,
        PanelEv.clearTimerFire 5000]).1.displayed ≠ none := by
  decide

/-- C8 amended: in every polling run the displayed utterance is replaced
exactly when the newest fetched utterance's identifier differs from the
displayed one (scheduling a clear for 5 seconds later), and along any event
sequence from mount the same identifier is never shown twice in a row
without an intervening different utterance or a clear; the scheduled
5-second clear, however, is cancelled by the effect cleanup triggered by
the display update itself, after which the clear timeout is a no-op, so the
caption persists until superseded or disabled rather than being
auto-cleared. -/
theorem caption_replacement_amended :
    (∀ s recent now newest cur, recent.getLast? = some newest →
        s.displayed = some cur →
        newest.transcription_id = cur.transcription_id →
        pollUpdate recent now s = (s, []))
    ∧ (∀ s recent now newest, recent.getLast? = some newest →
        (∀ cur, s.displayed = some cur →
          newest.transcription_id ≠ cur.transcription_id) →
        pollUpdate recent now s
          = (⟨some newest, some (now + 5000)⟩,
             [DispEv.shown newest.transcription_id]))
    ∧ (∀ evs, chainOk none (panelRun panelInit evs).2 = true)
    ∧ (∀ s, panelStep s PanelEv.effectCleanup = ({ s with clearAt := none }, []))
    ∧ (∀ s now, s.clearAt = none →
        panelStep s (PanelEv.clearTimerFire now) = (s, [])) := by
  refine ⟨?_, ?_, ?_, ?_, ?_⟩
  · intro s recent now newest cur hl hd hne
    simp [pollUpdate, hl, hd, hne]
  · intro s recent now newest hl hdiff
    rcases hd : s.displayed with _ | cur
    · simp [pollUpdate, hl, hd]
    · simp [pollUpdate, hl, hd, hdiff cur hd]
  · intro evs
    have h := panelRun_chain evs panelInit
    simpa [panelInit] using h
  · intro s
    rfl
  · intro s now hc
    simp [panelStep, hc]

/-- C8 amended, witnessed: a second poll returning the same utterance leaves
the display untouched, a different utterance replaces it and schedules the
5-second clear, and the chain property holds on a concrete run. -/
theorem caption_replacement_amended_witness :
    pollUpdate [⟨"t1", "a"⟩] 1000 ⟨some ⟨"t1", "b"⟩, some 99⟩
      = (⟨some ⟨"t1", "b"⟩, some 99⟩, [])
    ∧ pollUpdate [⟨"t2", "c"⟩] 7 ⟨some ⟨"t1", "b"⟩, none⟩
      = (⟨some ⟨"t2", "c"⟩, some 5007⟩, [DispEv.shown "t2"])
    ∧ chainOk none (panelRun panelInit [PanelEv.poll [⟨"t1", "a"⟩] 0,
        PanelEv.poll [⟨"t1", "a"⟩] 1000]).2 = true := by
  refine ⟨?_, ?_, ?_⟩
  · exact caption_replacement_amended.1 ⟨some ⟨"t1", "b"⟩, some 99⟩ [⟨"t1", "a"⟩]
      1000 ⟨"t1", "a"⟩ ⟨"t1", "b"⟩ rfl rfl rfl
  · exact caption_replacement_amended.2.1 ⟨some ⟨"t1", "b"⟩, none⟩ [⟨"t2", "c"⟩]
      7 ⟨"t2", "c"⟩ rfl (by intro cur hc; cases hc; decide)
  · exact caption_replacement_amended.2.2.1 _
